import Mathlib

/-!
Verification of the YouTube channel collection pipeline
(`src/youtube_to_sheets.py`) against its natural-language specification.

The Python program is shallowly embedded: pure helpers become Lean
functions, the external YouTube / Sheets APIs become explicit function
parameters (`Option`-valued to model request failures), and the
spreadsheet becomes a list of rows threaded through the writer.
-/

namespace YT

/-! ## Email extraction (`extract_email`, lines 29-40)

The source compiles the regular expression written in Python as the RAW
string literal `r'[a-zA-Z0-9._%+-]+@[a-zA-Z0-9.-]+\\.[a-zA-Z]{2,}'`.
Because the literal is raw, the two characters `\\` reach the regex
engine unescaped and denote a LITERAL backslash character, and the
following unescaped `.` denotes "any character except newline".  So the
compiled pattern is

  local-part  at-sign  domain-chars  literal-backslash  any-char  letter letter letter*

We embed that compiled pattern faithfully as a list of elements (a
single-character class, required once or repeated greedily) and give the
standard leftmost, greedy-with-backtracking search that Python re.search
performs. -/

/-- A regex element: a single-character class required exactly once, or a
greedy Kleene star of a class.  The regex `X+` is encoded as
`one X, star X` and `X{2,}` as `one X, one X, star X`. -/
inductive Elem where
  | one (p : Char → Bool)
  | star (p : Char → Bool)

/-- Backtracking matcher anchored at the head of the character list:
returns the length of the preferred match of the element sequence, or
`none` when no match starts here.  A greedy star of a single-character
class may consume any prefix of the maximal run of that class, and
backtracking prefers the longest such prefix whose continuation matches;
the fold keeps exactly the largest successful consumption, which is the
match Python re returns. -/
def matchElems : List Elem → List Char → Option Nat
  | [], _ => some 0
  | Elem.one _ :: _, [] => none
  | Elem.one p :: es, c :: cs =>
    if p c then (matchElems es cs).map (· + 1) else none
  | Elem.star p :: es, cs =>
    let k := (cs.takeWhile p).length
    (List.range (k + 1)).foldl
      (fun acc j =>
        match matchElems es (cs.drop j) with
        | some n => some (j + n)
        | none => acc)
      none

/-- Leftmost search, as Python re.search: try a match at each position
from the left; on the first position where the pattern matches, return
the matched substring (the value of match.group(0)). -/
def reSearch (es : List Elem) : List Char → Option (List Char)
  | [] =>
    match matchElems es [] with
    | some _ => some []
    | none => none
  | c :: cs =>
    match matchElems es (c :: cs) with
    | some n => some ((c :: cs).take n)
    | none => reSearch es cs

/-- Character class `[a-zA-Z0-9._%+-]` (the local part of the pattern). -/
def isLocalChar (c : Char) : Bool :=
  c.isAlpha || c.isDigit || c == '.' || c == '_' || c == '%' || c == '+' || c == '-'

/-- Character class `[a-zA-Z0-9.-]` (the domain part of the pattern). -/
def isDomainChar (c : Char) : Bool :=
  c.isAlpha || c.isDigit || c == '.' || c == '-'

/-- Character class `[a-zA-Z]` (the trailing letters of the pattern). -/
def isTldChar (c : Char) : Bool := c.isAlpha

/-- The element sequence of the COMPILED pattern of line 35.  The raw
string hands the regex engine the characters
`[a-zA-Z0-9._%+-]+@[a-zA-Z0-9.-]+` then backslash backslash dot then
`[a-zA-Z]{2,}`; the doubled backslash is the escape for one literal
backslash character, and the dot is the wildcard (anything but a
newline). -/
def emailPattern : List Elem :=
  [Elem.one isLocalChar, Elem.star isLocalChar,
   Elem.one (fun c => c == '@'),
   Elem.one isDomainChar, Elem.star isDomainChar,
   Elem.one (fun c => c == '\\'),
   Elem.one (fun c => c != '\n'),
   Elem.one isTldChar, Elem.one isTldChar, Elem.star isTldChar]

/-- The sentinel the source returns on extraction failure (Japanese for
"acquisition failed"). -/
def sentinel : String := "取得失敗"

/-- `extract_email` (lines 29-40): empty description -> sentinel;
otherwise return the first match of the compiled pattern, or the
sentinel when there is none. -/
def extract_email (description : String) : String :=
  if description.isEmpty then sentinel
  else
    match reSearch emailPattern description.toList with
    | some m => String.mk m
    | none => sentinel

/-! ## Data model

A detail item as returned by the Detail API (channels.list with parts
snippet and statistics): the description and the three statistics fields
may be absent, in which case the source substitutes a default via
dict.get. -/

/-- One item of a channels.list response (lines 168-181 read exactly
these fields). -/
structure ChannelItem where
  id : String
  title : String
  description : Option String
  subscriberCount : Option Nat
  viewCount : Option Nat
  videoCount : Option Nat
deriving DecidableEq

/-- The record dict built at lines 173-182 (one emitted DetailRecord). -/
structure Channel where
  channel_id : String
  title : String
  description : String
  email : String
  subscriber_count : Nat
  view_count : Nat
  video_count : Nat
  fetched_at : String
deriving DecidableEq

/-- A category from config/category_ids.json. -/
structure Category where
  id : String
  name : String
deriving DecidableEq

/-! ## Detail enrichment (`get_channel_details`, lines 150-192)

The Detail API is a parameter `fetch` from a batch of ids to
`Option (List ChannelItem)`; `none` models the request raising an
exception.  The wall clock is a parameter `now` (the fetched_at
stamp). -/

/-- The per-item body of the response loop (lines 168-183): read the
description (default empty), read the subscriber count (default 0), drop
the item when the count is strictly below the threshold, otherwise build
the record. -/
def processItem (threshold : Nat) (now : String) (item : ChannelItem) : Option Channel :=
  let description := item.description.getD ""
  let subscriber_count := item.subscriberCount.getD 0
  if subscriber_count < threshold then none
  else some
    { channel_id := item.id
      title := item.title
      description := description
      email := extract_email description
      subscriber_count := subscriber_count
      view_count := item.viewCount.getD 0
      video_count := item.videoCount.getD 0
      fetched_at := now }

/-- Processing of one successful response: every item in response order,
keeping those that pass the threshold. -/
def processResponse (threshold : Nat) (now : String) (items : List ChannelItem) : List Channel :=
  items.filterMap (processItem threshold now)

/-- What one chunk contributes to the output: a failed fetch contributes
nothing (the except branch at lines 188-190 logs and continues). -/
def chunkOutput (fetch : List String → Option (List ChannelItem))
    (threshold : Nat) (now : String) (batch : List String) : List Channel :=
  match fetch batch with
  | some items => processResponse threshold now items
  | none => []

/-- The batching loop of lines 158-190, fuel-indexed so that it is
structurally recursive; each step handles the 50-element batch
`ids[i:i+50]` and one more fetch call (counted in the second component
whether or not the call succeeds).  Fuel `ids.length` is always enough
because every step consumes at least one id. -/
def detailsLoopF (fetch : List String → Option (List ChannelItem))
    (threshold : Nat) (now : String) : Nat → List String → List Channel × Nat
  | 0, _ => ([], 0)
  | _ + 1, [] => ([], 0)
  | fuel + 1, c :: cs =>
    let batch := (c :: cs).take 50
    let rest := detailsLoopF fetch threshold now fuel ((c :: cs).drop 50)
    (chunkOutput fetch threshold now batch ++ rest.1, rest.2 + 1)

/-- `get_channel_details` (lines 150-192) together with the number of
detail-fetch calls it issues: early return on an empty id list, then the
batching loop. -/
def detailsRun (fetch : List String → Option (List ChannelItem))
    (threshold : Nat) (now : String) (channel_ids : List String) : List Channel × Nat :=
  if channel_ids.isEmpty then ([], 0)
  else detailsLoopF fetch threshold now channel_ids.length channel_ids

/-- The list of records `get_channel_details` returns. -/
def get_channel_details (fetch : List String → Option (List ChannelItem))
    (threshold : Nat) (now : String) (channel_ids : List String) : List Channel :=
  (detailsRun fetch threshold now channel_ids).1

/-- The number of detail-fetch calls `get_channel_details` issues. -/
def detailCalls (fetch : List String → Option (List ChannelItem))
    (threshold : Nat) (now : String) (channel_ids : List String) : Nat :=
  (detailsRun fetch threshold now channel_ids).2

/-- The consecutive 50-element chunks `range(0, len(ids), 50)` walks,
fuel-indexed as above. -/
def chunks50F : Nat → List String → List (List String)
  | 0, _ => []
  | _ + 1, [] => []
  | fuel + 1, c :: cs => (c :: cs).take 50 :: chunks50F fuel ((c :: cs).drop 50)

/-- The chunk decomposition of an id list. -/
def chunks50 (ids : List String) : List (List String) :=
  chunks50F ids.length ids

/-! ## Discovery (`get_popular_videos`, lines 107-148)

The Discovery API is a parameter `pages` from the page index (how many
pages have been requested before) to `Option Page`; `none` models the
request raising an exception, which the except branch at lines 146-148
turns into an empty result for the whole category. -/

/-- One videos.list response: the channel id of each item's snippet, and
the optional continuation token. -/
structure Page where
  items : List String
  nextPageToken : Option String

/-- The inner for-loop of lines 129-132: add each discovered channel id
to the accumulated set unless it is already in the existing-channels
snapshot (sets are modelled as duplicate-free lists; insertion appends
when the id is new to both). -/
def addCandidates (existing : List String) (acc : List String) (items : List String) : List String :=
  items.foldl (fun a cid => if cid ∈ existing ∨ cid ∈ a then a else a ++ [cid]) acc

/-- The daily quota ceiling of line 112. -/
def daily_limit : Nat := 10000

/-- The while-loop of lines 115-142, fuel-indexed so that it is
structurally recursive: request the next page (`none` aborts the
category), count one quota unit and one request, collect the filtered
channel ids, stop when there is no continuation token or the quota
counter has reached the ceiling.  Result: (channel ids, final quota
counter, number of page requests).  Fuel `daily_limit - total_quota` is
always enough because the loop only continues while the incremented
counter is below the ceiling. -/
def pagerLoopF (pages : Nat → Option Page) (existing : List String) :
    Nat → List String → Nat → Nat → Nat → Option (List String × Nat × Nat)
  | 0, _, _, _, _ => none
  | fuel + 1, acc, idx, total_quota, reqs =>
    match pages idx with
    | none => none
    | some p =>
      if p.nextPageToken.isNone ∨ daily_limit ≤ total_quota + 1 then
        some (addCandidates existing acc p.items, total_quota + 1, reqs + 1)
      else
        pagerLoopF pages existing fuel (addCandidates existing acc p.items)
          (idx + 1) (total_quota + 1) (reqs + 1)

/-- The full run of the pager loop from its initial state. -/
def pagerRun (pages : Nat → Option Page) (existing : List String) :
    Option (List String × Nat × Nat) :=
  pagerLoopF pages existing daily_limit [] 0 0 0

/-- `get_popular_videos` (lines 107-148): the ids the loop accumulated,
or the empty list when any page request failed. -/
def get_popular_videos (pages : Nat → Option Page) (existing : List String) : List String :=
  match pagerRun pages existing with
  | some (ids, _, _) => ids
  | none => []

/-! ## Loading the existing ids (`_load_existing_channel_ids`, lines 73-93) -/

/-- The loader, over the result of reading range A2:A (`none` models the
read raising); an empty read and any failure both give the empty set,
otherwise the set of first cells of the nonempty rows. -/
def load_existing_channel_ids (readResult : Option (List (List String))) : List String :=
  match readResult with
  | none => []
  | some values =>
    if values.isEmpty then []
    else (values.filterMap (fun row => row.head?)).dedup

/-- What the A2:A read returns on a sheet held as a list of rows: column
A of every row from row 2 on (the header row 1 is outside the range). -/
def colA2A (sheet : List (List String)) : List (List String) :=
  (sheet.drop 1).map (fun row => row.take 1)

/-! ## The writer (`write_to_spreadsheet`, lines 194-252) -/

/-- The display labels of header_map (lines 201-210), in its key
order. -/
def header_row : List String :=
  ["チャンネルID", "チャンネル名称", "説明", "メールアドレス",
   "登録者数", "視聴数", "動画数", "チャンネル取得日"]

/-- One output row (line 215): the record's fields in header_map key
order. -/
def channelRow (c : Channel) : List String :=
  [c.channel_id, c.title, c.description, c.email,
   toString c.subscriber_count, toString c.view_count,
   toString c.video_count, c.fetched_at]

/-- The values update of lines 228-233 aimed at cell A1: overwrite the
leading rows of the sheet with the given rows. -/
def updateAtA1 (sheet : List (List String)) (newRows : List (List String)) : List (List String) :=
  newRows ++ sheet.drop newRows.length

/-- The values append of lines 240-246 with INSERT_ROWS: add the rows
after the last occupied row. -/
def appendRows (sheet : List (List String)) (newRows : List (List String)) : List (List String) :=
  sheet ++ newRows

/-- `write_to_spreadsheet` (lines 194-252) acting on the sheet state: a
no-op on empty data; otherwise read the occupied-row count of column A,
write the header first when that count is zero (and account for it as
row 1), then append all data rows after the last occupied row. -/
def write_to_spreadsheet (data : List Channel) (sheet : List (List String)) : List (List String) :=
  if data.isEmpty then sheet
  else
    let values := data.map channelRow
    let last_row := sheet.length
    let withHeader := if last_row = 0 then updateAtA1 sheet [header_row] else sheet
    appendRows withHeader values

/-! ## The per-run pipeline (`run`, lines 306-345) -/

/-- The body of the category loop (lines 315-330): discover, then enrich
only when discovery returned any ids. -/
def perCategory (pages : String → Nat → Option Page)
    (fetch : List String → Option (List ChannelItem))
    (threshold : Nat) (now : String) (existing : List String)
    (cat : Category) : List Channel :=
  let channel_ids := get_popular_videos (pages cat.id) existing
  if channel_ids.isEmpty then [] else get_channel_details fetch threshold now channel_ids

/-- The records accumulated over all categories
(all_new_channels at the end of the loop). -/
def runCollect (pages : String → Nat → Option Page)
    (fetch : List String → Option (List ChannelItem))
    (threshold : Nat) (now : String) (existing : List String)
    (categories : List Category) : List Channel :=
  (categories.map (perCategory pages fetch threshold now existing)).flatten

/-- The whole pipeline from the stored sheet: the existing-id snapshot is
computed once, before any category is processed, and every category uses
that same snapshot (the constructor at line 46 loads it; run only reads
it). -/
def runFromStore (readResult : Option (List (List String)))
    (pages : String → Nat → Option Page)
    (fetch : List String → Option (List ChannelItem))
    (threshold : Nat) (now : String)
    (categories : List Category) : List Channel :=
  runCollect pages fetch threshold now (load_existing_channel_ids readResult) categories

/-- The enricher inputs of a run: the discovery result of every category
that passed the `if channel_ids:` guard. -/
def enricherInputs (pages : String → Nat → Option Page) (existing : List String)
    (categories : List Category) : List (List String) :=
  (categories.map (fun cat => get_popular_videos (pages cat.id) existing)).filter
    (fun ids => !ids.isEmpty)

/-! ## Helper lemmas about the chunking of the enricher -/

/-- The fuel of `chunks50F` is irrelevant once it covers the list length. -/
theorem chunks50F_congr (f1 : Nat) : ∀ (f2 : Nat) (ids : List String),
    ids.length ≤ f1 → ids.length ≤ f2 → chunks50F f1 ids = chunks50F f2 ids := by
  induction f1 with
  | zero =>
    intro f2 ids h1 _
    have hids : ids = [] := List.length_eq_zero.mp (Nat.le_zero.mp h1)
    subst hids
    cases f2 <;> simp [chunks50F]
  | succ n ih =>
    intro f2 ids h1 h2
    cases ids with
    | nil => cases f2 <;> simp [chunks50F]
    | cons c cs =>
      cases f2 with
      | zero => simp at h2
      | succ m =>
        simp only [chunks50F]
        congr 1
        apply ih
        · simp only [List.length_drop, List.length_cons] at *
          omega
        · simp only [List.length_drop, List.length_cons] at *
          omega

/-- Unfolding equation of `chunks50` on a nonempty list: it is the loop
`range(0, len(ids), 50)` walks. -/
theorem chunks50_cons (c : String) (cs : List String) :
    chunks50 (c :: cs) = (c :: cs).take 50 :: chunks50 ((c :: cs).drop 50) := by
  simp only [chunks50, List.length_cons, chunks50F]
  congr 1
  apply chunks50F_congr <;> simp only [List.length_drop, List.length_cons] <;> omega

/-- The batching loop is exactly one fetch per chunk, the outputs of the
chunks concatenated in chunk order. -/
theorem detailsLoopF_eq (fetch : List String → Option (List ChannelItem))
    (threshold : Nat) (now : String) (fuel : Nat) : ∀ ids : List String,
    detailsLoopF fetch threshold now fuel ids =
      (((chunks50F fuel ids).map (chunkOutput fetch threshold now)).flatten,
       (chunks50F fuel ids).length) := by
  induction fuel with
  | zero => intro ids; simp [detailsLoopF, chunks50F]
  | succ n ih =>
    intro ids
    cases ids with
    | nil => simp [detailsLoopF, chunks50F]
    | cons c cs => simp [detailsLoopF, chunks50F, ih]

/-- `get_channel_details` equals the concatenation of the per-chunk
outputs over the chunk decomposition. -/
theorem get_channel_details_eq (fetch : List String → Option (List ChannelItem))
    (threshold : Nat) (now : String) (ids : List String) :
    get_channel_details fetch threshold now ids =
      ((chunks50 ids).map (chunkOutput fetch threshold now)).flatten := by
  cases ids with
  | nil => simp [get_channel_details, detailsRun, chunks50, chunks50F]
  | cons c cs =>
    simp [get_channel_details, detailsRun, detailsLoopF_eq, chunks50]

/-- The number of detail-fetch calls equals the number of chunks. -/
theorem detailCalls_eq (fetch : List String → Option (List ChannelItem))
    (threshold : Nat) (now : String) (ids : List String) :
    detailCalls fetch threshold now ids = (chunks50 ids).length := by
  cases ids with
  | nil => simp [detailCalls, detailsRun, chunks50, chunks50F]
  | cons c cs =>
    simp [detailCalls, detailsRun, detailsLoopF_eq, chunks50]

/-- There are exactly ceil(n / 50) chunks. -/
theorem chunks50_length : ∀ ids : List String,
    (chunks50 ids).length = (ids.length + 49) / 50
  | [] => by rfl
  | c :: cs => by
    rw [chunks50_cons]
    have ih := chunks50_length ((c :: cs).drop 50)
    simp only [List.length_cons, List.length_drop] at ih ⊢
    omega
termination_by ids => ids.length
decreasing_by simp only [List.length_drop, List.length_cons]; omega

/-- The chunks are consecutive: concatenated they give the input back. -/
theorem chunks50_flatten : ∀ ids : List String, (chunks50 ids).flatten = ids
  | [] => by rfl
  | c :: cs => by
    rw [chunks50_cons, List.flatten_cons, chunks50_flatten ((c :: cs).drop 50),
      List.take_append_drop]
termination_by ids => ids.length
decreasing_by simp only [List.length_drop, List.length_cons]; omega

/-- Every chunk is nonempty and holds at most 50 ids. -/
theorem chunks50_mem : ∀ ids : List String, ∀ b ∈ chunks50 ids, b.length ≤ 50 ∧ b ≠ []
  | [] => by simp [chunks50, chunks50F]
  | c :: cs => by
    rw [chunks50_cons]
    intro b hb
    rcases List.mem_cons.mp hb with h | h
    · subst h
      refine ⟨by simp [List.length_take], by simp [List.take_eq_nil_iff]⟩
    · exact chunks50_mem ((c :: cs).drop 50) b h
termination_by ids => ids.length
decreasing_by simp only [List.length_drop, List.length_cons]; omega

/-- `chunks50` returns no chunk only for the empty input. -/
theorem chunks50_eq_nil_iff (ids : List String) : chunks50 ids = [] ↔ ids = [] := by
  cases ids with
  | nil => simp [chunks50, chunks50F]
  | cons c cs => rw [chunks50_cons]; simp

/-- Every chunk except the last holds exactly 50 ids. -/
theorem chunks50_full : ∀ (ids : List String) (i : Nat), i + 1 < (chunks50 ids).length →
    ((chunks50 ids).getD i []).length = 50
  | [] => by simp [chunks50, chunks50F]
  | c :: cs => by
    rw [chunks50_cons]
    intro i hi
    cases i with
    | zero =>
      simp only [List.getD_cons_zero]
      have hlen : 50 < (c :: cs).length := by
        by_contra hle
        push_neg at hle
        have hnil : (c :: cs).drop 50 = [] := List.drop_eq_nil_of_le hle
        rw [hnil] at hi
        simp [chunks50, chunks50F] at hi
      simp only [List.length_take]
      omega
    | succ j =>
      simp only [List.getD_cons_succ] at *
      exact chunks50_full ((c :: cs).drop 50) j (by simpa using hi)
termination_by ids => ids.length
decreasing_by simp only [List.length_drop, List.length_cons]; omega

/-! ## Helper lemmas about the threshold filter -/

/-- A record is only emitted with a subscriber count at or above the
threshold. -/
theorem processItem_some_threshold {threshold : Nat} {now : String}
    {item : ChannelItem} {ch : Channel}
    (h : processItem threshold now item = some ch) :
    threshold ≤ ch.subscriber_count := by
  unfold processItem at h
  by_cases hc : item.subscriberCount.getD 0 < threshold
  · simp [hc] at h
  · simp only [if_neg hc, Option.some.injEq] at h
    subst h
    exact Nat.not_lt.mp hc

/-- Every record of the enricher output comes from `processItem` on some
response item. -/
theorem mem_get_channel_details {fetch : List String → Option (List ChannelItem)}
    {threshold : Nat} {now : String} {ids : List String} {ch : Channel}
    (h : ch ∈ get_channel_details fetch threshold now ids) :
    ∃ item : ChannelItem, processItem threshold now item = some ch := by
  rw [get_channel_details_eq] at h
  rw [List.mem_flatten] at h
  obtain ⟨l, hl, hch⟩ := h
  rw [List.mem_map] at hl
  obtain ⟨b, _, rfl⟩ := hl
  unfold chunkOutput at hch
  cases hfe : fetch b with
  | none => rw [hfe] at hch; simp at hch
  | some items =>
    rw [hfe] at hch
    simp only [processResponse, List.mem_filterMap] at hch
    obtain ⟨item, _, hpi⟩ := hch
    exact ⟨item, hpi⟩

/-! ## Helper lemmas about the pager -/

/-- The inner filter of the discovery loop never lets an id of the
existing snapshot into the accumulated set. -/
theorem addCandidates_not_mem (existing : List String) : ∀ (items acc : List String),
    (∀ x ∈ acc, x ∉ existing) → ∀ x ∈ addCandidates existing acc items, x ∉ existing := by
  intro items
  induction items with
  | nil => intro acc h; simpa [addCandidates] using h
  | cons i is ih =>
    intro acc h
    simp only [addCandidates, List.foldl_cons]
    apply ih
    intro x hx
    by_cases hi : i ∈ existing ∨ i ∈ acc
    · rw [if_pos hi] at hx
      exact h x hx
    · rw [if_neg hi] at hx
      rcases List.mem_append.mp hx with hx | hx
      · exact h x hx
      · rw [List.mem_singleton] at hx
        subst hx
        exact fun hmem => hi (Or.inl hmem)

/-- Counting invariant of the pager loop: it adds equally to the quota
counter and to the request count, makes at least one request, and never
drives the quota counter past the ceiling when it starts below it. -/
theorem pagerLoopF_counts (pages : Nat → Option Page) (existing : List String) :
    ∀ (fuel : Nat) (acc : List String) (idx total_quota reqs : Nat)
      (ids : List String) (q r : Nat),
      pagerLoopF pages existing fuel acc idx total_quota reqs = some (ids, q, r) →
      q + reqs = r + total_quota ∧ reqs < r ∧
        (total_quota < daily_limit → q ≤ daily_limit) := by
  intro fuel
  induction fuel with
  | zero =>
    intro acc idx total_quota reqs ids q r h
    simp [pagerLoopF] at h
  | succ n ih =>
    intro acc idx total_quota reqs ids q r h
    rw [pagerLoopF] at h
    cases hp : pages idx with
    | none => rw [hp] at h; simp at h
    | some p =>
      rw [hp] at h
      simp only at h
      by_cases hc : p.nextPageToken.isNone = true ∨ daily_limit ≤ total_quota + 1
      · rw [if_pos hc] at h
        simp only [Option.some.injEq, Prod.mk.injEq] at h
        obtain ⟨-, hq, hr⟩ := h
        rcases hc with hc | hc <;> omega
      · rw [if_neg hc] at h
        have hlt : total_quota + 1 < daily_limit := by
          rw [not_or] at hc
          omega
        have := ih _ _ _ _ _ _ _ h
        refine ⟨by omega, by omega, fun _ => this.2.2 hlt⟩

/-- Invariant of the pager loop: the accumulated ids stay disjoint from
the existing snapshot. -/
theorem pagerLoopF_not_mem (pages : Nat → Option Page) (existing : List String) :
    ∀ (fuel : Nat) (acc : List String) (idx total_quota reqs : Nat)
      (ids : List String) (q r : Nat),
      (∀ x ∈ acc, x ∉ existing) →
      pagerLoopF pages existing fuel acc idx total_quota reqs = some (ids, q, r) →
      ∀ x ∈ ids, x ∉ existing := by
  intro fuel
  induction fuel with
  | zero =>
    intro acc idx total_quota reqs ids q r _ h
    simp [pagerLoopF] at h
  | succ n ih =>
    intro acc idx total_quota reqs ids q r hacc h
    rw [pagerLoopF] at h
    cases hp : pages idx with
    | none => rw [hp] at h; simp at h
    | some p =>
      rw [hp] at h
      simp only at h
      by_cases hc : p.nextPageToken.isNone = true ∨ daily_limit ≤ total_quota + 1
      · rw [if_pos hc] at h
        simp only [Option.some.injEq, Prod.mk.injEq] at h
        obtain ⟨hids, -, -⟩ := h
        subst hids
        exact addCandidates_not_mem existing p.items acc hacc
      · rw [if_neg hc] at h
        exact ih _ _ _ _ _ _ _ (addCandidates_not_mem existing p.items acc hacc) h

/-! ## Concrete fixtures used by the claims and witnesses -/

/-- 101 distinct candidate identifiers. -/
def ids101 : List String := (List.range 101).map (fun n => toString n)

/-- A detail item with the given subscriber count and nothing else set. -/
def itemSubs (n : Nat) : ChannelItem :=
  { id := "UC1", title := "ch", description := none,
    subscriberCount := some n, viewCount := none, videoCount := none }

/-- A detail item whose statistics carry none of the three counts. -/
def itemNone : ChannelItem :=
  { id := "UC2", title := "ch2", description := none,
    subscriberCount := none, viewCount := none, videoCount := none }

/-- A detail API stub returning one item at the default threshold. -/
def fetchOne : List String → Option (List ChannelItem) := fun _ => some [itemSubs 100000]

/-- A sample emitted record. -/
def chSample : Channel :=
  { channel_id := "UC9", title := "n", description := "d", email := sentinel,
    subscriber_count := 100000, view_count := 1, video_count := 2, fetched_at := "now" }

/-- The three chunks of `ids101`. -/
def bW1 : List String := ids101.take 50

/-- Second chunk of `ids101`. -/
def bW2 : List String := (ids101.drop 50).take 50

/-- Third chunk of `ids101`. -/
def bW3 : List String := (ids101.drop 50).drop 50

/-- A detail API stub that fails exactly on the chunk holding id "50"
(the second chunk of `ids101`). -/
def fetchFailMid : List String → Option (List ChannelItem) :=
  fun b => if "50" ∈ b then none else some []

/-- A discovery page with one item and no continuation token. -/
def pageTerminal : Page := { items := ["UCa"], nextPageToken := none }

/-- A sample category. -/
def catW : Category := { id := "10", name := "Music" }

/-! ## The claims -/

/-- C1: the spec states that contact extraction returns the first
substring matching local-part, at-sign, domain labels, dot, TLD of 2+
letters, so that "contact me at a.b+c@example.co.uk please" yields
"a.b+c@example.co.uk".  The code disagrees: because line 35 doubles the
backslash inside a RAW string, the compiled pattern demands a literal
backslash character between the domain and the trailing letters, so the
spec's positive example yields the sentinel, while a description with an
actual backslash is what the code accepts.  This theorem records the
code's behaviour at the spec's three examples and at a backslash-bearing
input. -/
theorem claim_C1_code_behavior :
    extract_email "contact me at a.b+c@example.co.uk please" = sentinel
    ∧ extract_email "no contact info" = sentinel
    ∧ extract_email "" = sentinel
    ∧ extract_email "a@b\\xyz" = "a@b\\xyz" :=
  ⟨rfl, rfl, rfl, rfl⟩

/-- C2: the enricher keeps a detail item exactly when its subscriber
count reaches the threshold: retention is equivalent to
threshold ≤ count, an item exactly at the threshold is kept, one a unit
below is dropped, and every record in the enricher output satisfies the
inclusive bound. -/
theorem claim_C2 (fetch : List String → Option (List ChannelItem))
    (threshold : Nat) (now : String) (ids : List String) :
    (∀ item : ChannelItem,
        (processItem threshold now item).isSome ↔
          threshold ≤ item.subscriberCount.getD 0)
    ∧ (∀ item : ChannelItem, item.subscriberCount.getD 0 = threshold →
        (processItem threshold now item).isSome)
    ∧ (∀ item : ChannelItem, item.subscriberCount.getD 0 + 1 = threshold →
        processItem threshold now item = none)
    ∧ (∀ ch ∈ get_channel_details fetch threshold now ids,
        threshold ≤ ch.subscriber_count) := by
  have hiff : ∀ item : ChannelItem,
      (processItem threshold now item).isSome ↔
        threshold ≤ item.subscriberCount.getD 0 := by
    intro item
    unfold processItem
    by_cases hc : item.subscriberCount.getD 0 < threshold
    · simp only [if_pos hc, Option.isSome_none]
      constructor
      · intro h; cases h
      · omega
    · simp only [if_neg hc, Option.isSome_some]
      constructor
      · intro _; omega
      · intro _; trivial
  refine ⟨hiff, ?_, ?_, ?_⟩
  · intro item h
    exact (hiff item).mpr (by omega)
  · intro item h
    have hc : item.subscriberCount.getD 0 < threshold := by omega
    simp [processItem, hc]
  · intro ch hch
    obtain ⟨item, hpi⟩ := mem_get_channel_details hch
    exact processItem_some_threshold hpi

/-- Witness for C2 at the default threshold 100000: an item exactly at
the threshold is kept, one a unit below is dropped, and a concrete
emitted record satisfies the bound. -/
theorem claim_C2_witness :
    (processItem 100000 "now" (itemSubs 100000)).isSome = true
    ∧ processItem 100000 "now" (itemSubs 99999) = none
    ∧ 100000 ≤ (Channel.mk "UC1" "ch" "" sentinel 100000 0 0 "now").subscriber_count := by
  have h := claim_C2 fetchOne 100000 "now" ["UCX"]
  exact ⟨h.2.1 (itemSubs 100000) rfl, h.2.2.1 (itemSubs 99999) rfl,
    h.2.2.2 (Channel.mk "UC1" "ch" "" sentinel 100000 0 0 "now") (by decide)⟩

/-- C5: the enricher issues exactly ceil(n/50) detail-fetch calls over
the consecutive chunk decomposition of its input (chunks concatenate
back to the input, each chunk is nonempty with at most 50 ids, every
chunk except the last holds exactly 50), the output is the per-chunk
outputs concatenated in chunk and response order, and on 101 ids there
are exactly 3 calls over chunks sized 50, 50, 1. -/
theorem claim_C5 (fetch : List String → Option (List ChannelItem))
    (threshold : Nat) (now : String) (ids : List String) :
    detailCalls fetch threshold now ids = (ids.length + 49) / 50
    ∧ (chunks50 ids).flatten = ids
    ∧ (∀ b ∈ chunks50 ids, b.length ≤ 50 ∧ b ≠ [])
    ∧ (∀ i : Nat, i + 1 < (chunks50 ids).length → ((chunks50 ids).getD i []).length = 50)
    ∧ get_channel_details fetch threshold now ids
        = ((chunks50 ids).map (chunkOutput fetch threshold now)).flatten
    ∧ detailCalls fetch threshold now ids101 = 3
    ∧ (chunks50 ids101).map List.length = [50, 50, 1] := by
  refine ⟨?_, chunks50_flatten ids, chunks50_mem ids, chunks50_full ids,
    get_channel_details_eq fetch threshold now ids, ?_, by decide⟩
  · rw [detailCalls_eq, chunks50_length]
  · rw [detailCalls_eq, chunks50_length]
    decide

/-- Witness for C5: the first chunk of the 101-id input is a member of
the chunk list with at most 50 ids and nonempty, and the non-final chunk
at index 0 holds exactly 50 ids. -/
theorem claim_C5_witness :
    ((ids101.take 50).length ≤ 50 ∧ ids101.take 50 ≠ [])
    ∧ ((chunks50 ids101).getD 0 []).length = 50 := by
  have h := claim_C5 (fun _ => some []) 100000 "now" ids101
  exact ⟨h.2.2.1 (ids101.take 50) (by decide), h.2.2.2.1 0 (by decide)⟩

/-- C6: the writer is a no-op on empty data; on nonempty data it reads
the occupied-row count, writes the fixed header row first when the sheet
is empty (data rows then start at row 2), appends after the last
occupied row without touching the existing rows (so the header is never
rewritten) otherwise, and every data row has exactly the header's field
count in header order. -/
theorem claim_C6 (data : List Channel) (sheet : List (List String)) :
    (data = [] → write_to_spreadsheet data sheet = sheet)
    ∧ (data ≠ [] → sheet = [] →
        write_to_spreadsheet data sheet = header_row :: data.map channelRow)
    ∧ (data ≠ [] → sheet ≠ [] →
        write_to_spreadsheet data sheet = sheet ++ data.map channelRow)
    ∧ (∀ c : Channel, (channelRow c).length = header_row.length) := by
  refine ⟨?_, ?_, ?_, fun c => rfl⟩
  · intro h
    subst h
    rfl
  · intro hd hs
    subst hs
    simp [write_to_spreadsheet, updateAtA1, appendRows, hd]
  · intro hd hs
    have hlen : sheet.length ≠ 0 := by
      simpa [List.length_eq_zero] using hs
    simp [write_to_spreadsheet, appendRows, hd, hlen]

/-- Witness for C6: committing one record to an empty sheet writes the
header then the data row; committing to a sheet already holding the
header row appends the data row and keeps row 1 unchanged. -/
theorem claim_C6_witness :
    write_to_spreadsheet [chSample] [] = header_row :: [chSample].map channelRow
    ∧ write_to_spreadsheet [chSample] [header_row] = [header_row] ++ [chSample].map channelRow
    ∧ (channelRow chSample).length = header_row.length := by
  have h1 := claim_C6 [chSample] ([] : List (List String))
  have h2 := claim_C6 [chSample] [header_row]
  exact ⟨h1.2.1 (by simp) rfl, h2.2.2.1 (by simp) (by simp), h1.2.2.2 chSample⟩

/-- C10: a detail item whose statistics carry no subscriber count is
read as 0, hence dropped whenever the threshold is positive, and never
produces a record; for retained items a missing view count or video
count likewise defaults to 0 in the emitted record. -/
theorem claim_C10 (threshold : Nat) (now : String) (ht : 0 < threshold) :
    (∀ item : ChannelItem, item.subscriberCount = none →
        processItem threshold now item = none)
    ∧ (∀ item : ChannelItem, item.subscriberCount = none →
        processResponse threshold now [item] = [])
    ∧ (∀ (item : ChannelItem) (ch : Channel), processItem threshold now item = some ch →
        (item.viewCount = none → ch.view_count = 0) ∧
        (item.videoCount = none → ch.video_count = 0)) := by
  have h1 : ∀ item : ChannelItem, item.subscriberCount = none →
      processItem threshold now item = none := by
    intro item h
    simp [processItem, h, ht]
  refine ⟨h1, ?_, ?_⟩
  · intro item h
    simp [processResponse, h1 item h]
  · intro item ch h
    unfold processItem at h
    by_cases hc : item.subscriberCount.getD 0 < threshold
    · simp [hc] at h
    · simp only [if_neg hc, Option.some.injEq] at h
      subst h
      constructor <;> intro hv <;> simp [hv]

/-- Witness for C10 at the default threshold 100000 and an item with no
statistics: it is dropped and yields no record. -/
theorem claim_C10_witness :
    processItem 100000 "now" itemNone = none
    ∧ processResponse 100000 "now" [itemNone] = [] := by
  have h := claim_C10 100000 "now" (by decide)
  exact ⟨h.1 itemNone rfl, h.2.1 itemNone rfl⟩

/-- C3: whenever the pager loop of a category completes, its quota
counter equals the number of page requests made (one increment per
request) and that number never exceeds the daily ceiling 10000; a
discovery sequence whose first page carries no continuation token
terminates after exactly one page request and one quota increment,
returning the ids of that single page filtered against the snapshot. -/
theorem claim_C3 (pages : Nat → Option Page) (existing : List String) :
    (∀ (ids : List String) (q r : Nat), pagerRun pages existing = some (ids, q, r) →
        q = r ∧ r ≤ daily_limit)
    ∧ (∀ p : Page, pages 0 = some p → p.nextPageToken = none →
        pagerRun pages existing = some (addCandidates existing [] p.items, 1, 1)) := by
  constructor
  · intro ids q r h
    obtain ⟨h1, h2, h3⟩ := pagerLoopF_counts pages existing daily_limit [] 0 0 0 ids q r h
    have hd : (0 : Nat) < daily_limit := by simp [daily_limit]
    have hq := h3 hd
    omega
  · intro p hp htok
    unfold pagerRun
    rw [show daily_limit = 9999 + 1 from rfl, pagerLoopF, hp]
    simp [htok]

/-- Witness for C3: with every page reporting one channel and no
continuation token, the loop returns that channel after exactly one
request and one quota unit, within the ceiling. -/
theorem claim_C3_witness :
    pagerRun (fun _ => some pageTerminal) [] = some (["UCa"], 1, 1)
    ∧ (1 : Nat) ≤ daily_limit := by
  have h := claim_C3 (fun _ => some pageTerminal) []
  have h2 := h.2 pageTerminal rfl rfl
  have h2a : pagerRun (fun _ => some pageTerminal) [] = some (["UCa"], 1, 1) := by
    rw [h2]
    rfl
  exact ⟨h2a, (h.1 ["UCa"] 1 1 h2a).2⟩

/-- C4: discovery filters every channel id against the snapshot of
existing ids before returning it, so no id of the snapshot appears in
any discovery output nor in any id list handed to the enricher during a
run. -/
theorem claim_C4 (pages : String → Nat → Option Page) (existing : List String)
    (categories : List Category) :
    (∀ (pgs : Nat → Option Page), ∀ cid ∈ get_popular_videos pgs existing, cid ∉ existing)
    ∧ (∀ input ∈ enricherInputs pages existing categories,
        ∀ cid ∈ input, cid ∉ existing) := by
  have h1 : ∀ (pgs : Nat → Option Page),
      ∀ cid ∈ get_popular_videos pgs existing, cid ∉ existing := by
    intro pgs cid hcid
    unfold get_popular_videos at hcid
    cases hres : pagerRun pgs existing with
    | none => rw [hres] at hcid; simp at hcid
    | some t =>
      obtain ⟨ids, q, r⟩ := t
      rw [hres] at hcid
      exact pagerLoopF_not_mem pgs existing daily_limit [] 0 0 0 ids q r
        (by simp) hres cid hcid
  refine ⟨h1, ?_⟩
  intro input hin cid hcid
  unfold enricherInputs at hin
  rw [List.mem_filter] at hin
  obtain ⟨hin, -⟩ := hin
  rw [List.mem_map] at hin
  obtain ⟨cat, -, rfl⟩ := hin
  exact h1 (pages cat.id) cid hcid

/-- Witness for C4: with one discovered page holding a known id "UCe"
and a new id "UCa", the snapshot member is filtered out of both the
discovery output and the enricher input. -/
theorem claim_C4_witness :
    "UCa" ∉ (["UCe"] : List String)
    ∧ "UCa" ∉ (["UCe"] : List String) := by
  have h := claim_C4 (fun _ _ => some { items := ["UCe", "UCa"], nextPageToken := none })
    ["UCe"] [catW]
  refine ⟨h.1 (fun _ => some { items := ["UCe", "UCa"], nextPageToken := none }) "UCa" ?_,
    h.2 ["UCa"] ?_ "UCa" (by decide)⟩
  · decide
  · decide

/-- C7: when one of three chunks fails its detail fetch, exactly that
chunk contributes nothing: the output is the first chunk's records
followed by the third chunk's records, the failed chunk is not retried
(still exactly 3 fetch calls), and every record of any successfully
fetched chunk is present in the output. -/
theorem claim_C7 (fetch : List String → Option (List ChannelItem)) (threshold : Nat)
    (now : String) (ids b1 b2 b3 : List String)
    (hch : chunks50 ids = [b1, b2, b3]) (hfail : fetch b2 = none) :
    get_channel_details fetch threshold now ids
      = chunkOutput fetch threshold now b1 ++ chunkOutput fetch threshold now b3
    ∧ detailCalls fetch threshold now ids = 3
    ∧ (∀ b ∈ chunks50 ids, ∀ items : List ChannelItem, fetch b = some items →
        ∀ ch ∈ processResponse threshold now items,
          ch ∈ get_channel_details fetch threshold now ids) := by
  refine ⟨?_, ?_, ?_⟩
  · rw [get_channel_details_eq, hch]
    simp [chunkOutput, hfail]
  · rw [detailCalls_eq, hch]
    rfl
  · intro b hb items hitems ch hch2
    rw [get_channel_details_eq, List.mem_flatten]
    refine ⟨chunkOutput fetch threshold now b, List.mem_map_of_mem _ hb, ?_⟩
    simp only [chunkOutput, hitems]
    exact hch2

/-- Witness for C7: on the 101-id input with the detail fetch failing
exactly on the middle chunk, the output is the first chunk's output
followed by the third chunk's output, and 3 calls are still issued. -/
theorem claim_C7_witness :
    get_channel_details fetchFailMid 100000 "now" ids101
      = chunkOutput fetchFailMid 100000 "now" bW1 ++ chunkOutput fetchFailMid 100000 "now" bW3
    ∧ detailCalls fetchFailMid 100000 "now" ids101 = 3 := by
  have h := claim_C7 fetchFailMid 100000 "now" ids101 bW1 bW2 bW3 (by decide) (by decide)
  exact ⟨h.1, h.2.1⟩

/-- C8: a page-request failure during a category's discovery makes that
category's discovery return the empty list, so the category contributes
no records, and the run over the remaining categories is exactly as if
the category were absent. -/
theorem claim_C8 (pages : String → Nat → Option Page)
    (fetch : List String → Option (List ChannelItem)) (threshold : Nat) (now : String)
    (existing : List String) (pre post : List Category) (cat : Category)
    (hfail : pagerRun (pages cat.id) existing = none) :
    get_popular_videos (pages cat.id) existing = []
    ∧ perCategory pages fetch threshold now existing cat = []
    ∧ runCollect pages fetch threshold now existing (pre ++ cat :: post)
        = runCollect pages fetch threshold now existing pre
          ++ runCollect pages fetch threshold now existing post := by
  have h1 : get_popular_videos (pages cat.id) existing = [] := by
    unfold get_popular_videos
    rw [hfail]
  have h2 : perCategory pages fetch threshold now existing cat = [] := by
    unfold perCategory
    rw [h1]
    rfl
  refine ⟨h1, h2, ?_⟩
  unfold runCollect
  rw [List.map_append, List.map_cons, List.flatten_append, List.flatten_cons, h2]
  simp

/-- Witness for C8: with every page request failing, discovery of the
sample category returns no ids and a run over just that category
commits exactly what a run over no categories commits. -/
theorem claim_C8_witness :
    get_popular_videos (fun _ => none) [] = ([] : List String)
    ∧ runCollect (fun _ _ => none) (fun _ => some []) 100000 "now" [] [catW]
        = runCollect (fun _ _ => none) (fun _ => some []) 100000 "now" [] []
          ++ runCollect (fun _ _ => none) (fun _ => some []) 100000 "now" [] [] := by
  have h := claim_C8 (fun _ _ => none) (fun _ => some []) 100000 "now" [] [] [] catW rfl
  exact ⟨h.1, h.2.2⟩

/-- C9: the known-id set is loaded once, before the category loop, from
the identifier column of the store with the header row outside the read
range, and any read failure degrades to the empty known-set, making the
run behave exactly like a first run. -/
theorem claim_C9 (pages : String → Nat → Option Page)
    (fetch : List String → Option (List ChannelItem)) (threshold : Nat) (now : String)
    (categories : List Category) :
    load_existing_channel_ids none = []
    ∧ (∀ (values : List (List String)) (cid : String),
        cid ∈ load_existing_channel_ids (some values) ↔
          ∃ row ∈ values, row.head? = some cid)
    ∧ (∀ (sheet : List (List String)) (cid : String),
        cid ∈ load_existing_channel_ids (some (colA2A sheet)) ↔
          ∃ row ∈ sheet.drop 1, row.head? = some cid)
    ∧ runFromStore none pages fetch threshold now categories
        = runCollect pages fetch threshold now [] categories := by
  have h2 : ∀ (values : List (List String)) (cid : String),
      cid ∈ load_existing_channel_ids (some values) ↔
        ∃ row ∈ values, row.head? = some cid := by
    intro values cid
    simp only [load_existing_channel_ids]
    by_cases hv : values.isEmpty
    · rw [if_pos hv]
      rw [List.isEmpty_iff] at hv
      subst hv
      simp
    · rw [if_neg hv]
      rw [List.mem_dedup, List.mem_filterMap]
  refine ⟨rfl, h2, ?_, rfl⟩
  intro sheet cid
  rw [h2]
  constructor
  · rintro ⟨row, hrow, hh⟩
    unfold colA2A at hrow
    rw [List.mem_map] at hrow
    obtain ⟨r0, hr0, rfl⟩ := hrow
    refine ⟨r0, hr0, ?_⟩
    cases r0 with
    | nil => simp at hh
    | cons a rest =>
      have ht1 : (a :: rest).take 1 = [a] := rfl
      rw [ht1] at hh
      simpa using hh
  · rintro ⟨r0, hr0, hh⟩
    refine ⟨r0.take 1, ?_, ?_⟩
    · unfold colA2A
      exact List.mem_map_of_mem _ hr0
    · cases r0 with
      | nil => simp at hh
      | cons a rest =>
        have ht1 : (a :: rest).take 1 = [a] := rfl
        rw [ht1]
        simpa using hh

/-- Witness for C9: a failed read yields the empty known-set; on a sheet
with a header row and one data row with id "UCk", the loaded set holds
exactly the data-row id. -/
theorem claim_C9_witness :
    load_existing_channel_ids none = []
    ∧ "UCk" ∈ load_existing_channel_ids (some (colA2A [header_row, ["UCk", "t"]])) := by
  have h := claim_C9 (fun _ _ => none) (fun _ => some []) 100000 "now" []
  refine ⟨h.1, ?_⟩
  rw [h.2.2.1 [header_row, ["UCk", "t"]] "UCk"]
  exact ⟨["UCk", "t"], by decide, rfl⟩

end YT
